import Mathlib

/-!
Verification development for the participant orchestration loop of the
mosaic federated-learning client (`src/bindings/modalic/python_sdk/client.py`,
with the near-duplicate variant in `src/bindings/python/python_sdk/client.py`).

The embedding models one `ModalicClient` instance.  Python's mutable `self`
becomes an explicit `ClientState`; each call into the external round
coordinator client (`modalic_sdk.Client`) or the user client is resolved by
an environment (`StepEnv`) that fixes, for one step, the round-status flags
and the outcomes of the external calls.  Python exceptions raised by user
callbacks are modelled with `Except`, carrying the client state at the point
of the raise; the exception classes the code catches
(`GlobalModelUnavailable`, `GlobalModelDataTypeMisMatch`,
`UninitializedParticipant`, `LocalModelLengthMisMatch`,
`LocalModelDataTypeMisMatch`) become constructors of outcome types.
Observable calls into the user client are recorded as an event trace.

`Raw` is the raw global-model payload returned by the coordinator client,
`M` the deserialized domain model, `U` a local update.
-/

/-- Outcome of `self._modalic_client.global_model()`: one of the two caught
exception classes, or a normal return of an optional raw model. -/
inductive FetchOutcome (Raw : Type) where
  | unavailable : FetchOutcome Raw
  | dataTypeMismatch : FetchOutcome Raw
  | success : Option Raw → FetchOutcome Raw
deriving DecidableEq

/-- Outcome of `self._modalic_client.set_model(local_model)`: the three caught
exception classes, or a normal return. -/
inductive SubmitOutcome where
  | success : SubmitOutcome
  | lengthMismatch : SubmitOutcome
  | dataTypeMismatch : SubmitOutcome
  | uninitialized : SubmitOutcome
deriving DecidableEq

/-- Modelled from the spec: the Backoff Scheduler (`justbackoff.Backoff`) is an
external library whose source is not in the repository.  Per the spec (§4.3)
the current interval starts at the minimum, each advance multiplies it by the
growth factor clamped to the maximum, and reset returns it to the minimum.
The client constructs it with `min_ms=100, max_ms=10000, factor=1.2,
jitter=False` (client.py line 36); jitter is disabled, so it is omitted.
Intervals are exact rationals measured in milliseconds. -/
structure Backoff where
  minMs : ℚ
  maxMs : ℚ
  factor : ℚ
  attempt : ℕ
deriving DecidableEq

/-- Modelled from the spec: the interval the scheduler yields for a given
attempt number, namely the minimum grown by the factor that many times and
clamped to the maximum. -/
def Backoff.forAttempt (b : Backoff) (a : ℕ) : ℚ :=
  min (b.minMs * b.factor ^ a) b.maxMs

/-- Modelled from the spec: one query of the scheduler returns the interval
for the current attempt and advances the attempt counter. -/
def Backoff.duration (b : Backoff) : ℚ × Backoff :=
  (b.forAttempt b.attempt, { b with attempt := b.attempt + 1 })

/-- Modelled from the spec: reset returns the interval to the minimum by
clearing the attempt counter. -/
def Backoff.reset (b : Backoff) : Backoff :=
  { b with attempt := 0 }

/-- The scheduler as configured in `ModalicClient.__init__`
(client.py line 36). -/
def pollPeriod : Backoff :=
  { minMs := 100, maxMs := 10000, factor := 6 / 5, attempt := 0 }

/-- The idle wait performed at the end of `_step` (client.py lines 156-160):
on progress the scheduler is reset and then queried, otherwise it is queried
directly.  Returns the wait duration and the updated scheduler. -/
def stepWait (b : Backoff) (madeProgress : Bool) : ℚ × Backoff :=
  (if madeProgress then b.reset else b).duration

/-- Evolution of the scheduler's only mutable field, the attempt counter,
across one step's idle wait.  The configuration fields of `pollPeriod` are
constants, so the client state below tracks just this counter. -/
def stepAttempt (a : ℕ) (madeProgress : Bool) : ℕ :=
  (stepWait { pollPeriod with attempt := a } madeProgress).2.attempt

/-- Mutable state of one `ModalicClient` instance: the cached global model
(`self._global_model`), the fetch-error flag
(`self._error_on_fetch_global_model`), the exit event (`self._exit_event`)
and the backoff scheduler (`self._poll_period`). -/
structure ClientState (M : Type) where
  global_model : Option M
  error_on_fetch_global_model : Bool
  exit_event : Bool
  poll_attempt : ℕ
deriving DecidableEq

/-- The state right after `ModalicClient.__init__` (client.py lines 30-36). -/
def initState (M : Type) : ClientState M :=
  { global_model := none
    error_on_fetch_global_model := false
    exit_event := false
    poll_attempt := 0 }

/-- Observable calls made during a step: into the user client
(`on_new_global_model`, `train_single_update`, `on_stop`) and the
coordinator's `set_model`. -/
inductive Ev (M U : Type) where
  | onNewGlobalModel : Option M → Ev M U
  | trainCalled : Option M → Ev M U
  | setModelCalled : U → Ev M U
  | onStopCalled : Ev M U
deriving DecidableEq

/-- Decides whether an event is an `on_new_global_model` invocation. -/
def Ev.isOnNewGM {M U : Type} : Ev M U → Bool
  | .onNewGlobalModel _ => true
  | _ => false

/-- Decides whether an event is a `train_single_update` invocation. -/
def Ev.isTrain {M U : Type} : Ev M U → Bool
  | .trainCalled _ => true
  | _ => false

/-- Decides whether an event is an `on_stop` invocation. -/
def Ev.isOnStop {M U : Type} : Ev M U → Bool
  | .onStopCalled => true
  | _ => false

/-- Environment for one step: the round-status flags reported by the
coordinator client this tick, the outcome of a fetch should one happen, the
outcome of a submission, and the user-client callbacks.  Each user callback
returns `Except Unit _`; an `Except.error` models the callback raising an
unclassified Python exception. -/
structure StepEnv (Raw M U : Type) where
  new_global_model : Bool
  should_set_model : Bool
  made_progress : Bool
  fetch : FetchOutcome Raw
  deserialize : Raw → Except Unit M
  onNewGlobal : Option M → Except Unit Unit
  participate : Except Unit Bool
  train : Option M → Except Unit U
  submit : U → SubmitOutcome

/-- A pure step environment: every user callback returns normally.  Claims
about the non-exceptional step behaviour quantify over these. -/
structure PEnv (Raw M U : Type) where
  new_global_model : Bool
  should_set_model : Bool
  made_progress : Bool
  fetch : FetchOutcome Raw
  deserialize : Raw → M
  participate : Bool
  train : Option M → U
  submit : U → SubmitOutcome

/-- Wraps a pure environment's callbacks in `Except.ok`. -/
def PEnv.toEnv {Raw M U : Type} (e : PEnv Raw M U) : StepEnv Raw M U :=
  { new_global_model := e.new_global_model
    should_set_model := e.should_set_model
    made_progress := e.made_progress
    fetch := e.fetch
    deserialize := fun r => Except.ok (e.deserialize r)
    onNewGlobal := fun _ => Except.ok ()
    participate := Except.ok e.participate
    train := fun m => Except.ok (e.train m)
    submit := e.submit }

/-- Embedding of `ModalicClient._fetch_global_model` (client.py lines 63-80).
The two caught exception classes set the error flag and leave the cached
model untouched; a normal return caches the (deserialized) result and clears
the flag.  An exception raised by the user client's
`deserialize_training_input` propagates (`Except.error`) with the state
unchanged, since both assignments in the `else` branch come after the call. -/
def fetchGlobalModel {Raw M U : Type} (env : StepEnv Raw M U) (s : ClientState M) :
    Except (ClientState M) (ClientState M) :=
  match env.fetch with
  | .unavailable => Except.ok { s with error_on_fetch_global_model := true }
  | .dataTypeMismatch => Except.ok { s with error_on_fetch_global_model := true }
  | .success none =>
      Except.ok { s with global_model := none, error_on_fetch_global_model := false }
  | .success (some raw) =>
      match env.deserialize raw with
      | .error _ => Except.error s
      | .ok m =>
          Except.ok { s with global_model := some m, error_on_fetch_global_model := false }

/-- Embedding of `ModalicClient._train` (client.py lines 162-176) together
with `_set_local_model` (lines 82-111), which it calls.  The user client's
`train_single_update` runs on the cached global model; its result is handed
to the coordinator's `set_model`.  `UninitializedParticipant` is caught
inside `_set_local_model` and sets the exit event; `LocalModelLengthMisMatch`
and `LocalModelDataTypeMisMatch` propagate out of `_set_local_model` and are
caught (and merely logged) in `_train`.  An exception raised by
`train_single_update` itself propagates. -/
def trainStep {Raw M U : Type} (env : StepEnv Raw M U) (s : ClientState M) :
    Except (ClientState M) (ClientState M × List (Ev M U)) :=
  match env.train s.global_model with
  | .error _ => Except.error s
  | .ok u =>
      match env.submit u with
      | .uninitialized =>
          Except.ok ({ s with exit_event := true },
            [Ev.trainCalled s.global_model, Ev.setModelCalled u])
      | .success =>
          Except.ok (s, [Ev.trainCalled s.global_model, Ev.setModelCalled u])
      | .lengthMismatch =>
          Except.ok (s, [Ev.trainCalled s.global_model, Ev.setModelCalled u])
      | .dataTypeMismatch =>
          Except.ok (s, [Ev.trainCalled s.global_model, Ev.setModelCalled u])

/-- Fetch block of `_step` (client.py lines 134-139): if the coordinator
reports a new global model or the fetch-error flag is set, fetch; otherwise
the state passes through. -/
def fetchPhase {Raw M U : Type} (env : StepEnv Raw M U) (s : ClientState M) :
    Except (ClientState M) (ClientState M) :=
  if env.new_global_model || s.error_on_fetch_global_model then
    fetchGlobalModel env s
  else Except.ok s

/-- Callback block of `_step` (client.py lines 141-142): inside the fetch
block (`gate` is its condition), if the error flag is now clear, invoke the
user client's `on_new_global_model` with the cached model. -/
def notifyPhase {Raw M U : Type} (env : StepEnv Raw M U) (gate : Bool)
    (s1 : ClientState M) : Except (ClientState M) (List (Ev M U)) :=
  if gate && !s1.error_on_fetch_global_model then
    match env.onNewGlobal s1.global_model with
    | .error _ => Except.error s1
    | .ok _ => Except.ok [Ev.onNewGlobalModel s1.global_model]
  else Except.ok ([] : List (Ev M U))

/-- Train block of `_step` (client.py lines 144-150): if the coordinator says
to submit, the user client opts in, and the error flag is clear, train and
submit.  Python's `and` evaluates `participate_in_update_task()` only when
`should_set_model()` returned true. -/
def submitPhase {Raw M U : Type} (env : StepEnv Raw M U) (s1 : ClientState M) :
    Except (ClientState M) (ClientState M × List (Ev M U)) :=
  if env.should_set_model then
    match env.participate with
    | .error _ => Except.error s1
    | .ok p =>
        if p && !s1.error_on_fetch_global_model then trainStep env s1
        else Except.ok (s1, [])
  else Except.ok (s1, [])

/-- Embedding of `ModalicClient._step` (client.py lines 127-160).  Under the
step lock: tick, then the fetch, callback and train blocks; after releasing
the lock, reset the backoff on progress and advance it by one wait.  An
`Except.error` result is an unclassified exception escaping the step,
carrying the state at the raise. -/
def stepE {Raw M U : Type} (env : StepEnv Raw M U) (s : ClientState M) :
    Except (ClientState M) (ClientState M × List (Ev M U)) :=
  match fetchPhase env s with
  | .error sErr => Except.error sErr
  | .ok s1 =>
      match notifyPhase env
          (env.new_global_model || s.error_on_fetch_global_model) s1 with
      | .error sErr => Except.error sErr
      | .ok ev1 =>
          match submitPhase env s1 with
          | .error sErr => Except.error sErr
          | .ok (s2, ev2) =>
              Except.ok
                ({ s2 with
                    poll_attempt := stepAttempt s2.poll_attempt env.made_progress },
                  ev1 ++ ev2)

/-- Embedding of `ModalicClient._run` (client.py lines 122-125): repeat
`_step` while the exit event is unset.  The supplied list fixes the
environment of each successive step; the loop also ends when the list is
exhausted.  An unclassified exception in a step propagates out of `_run`. -/
def runLoop {Raw M U : Type} :
    List (StepEnv Raw M U) → ClientState M →
      Except (ClientState M) (ClientState M × List (Ev M U))
  | [], s => Except.ok (s, [])
  | env :: rest, s =>
      if s.exit_event then Except.ok (s, [])
      else
        match stepE env s with
        | .error sErr => Except.error sErr
        | .ok (s1, ev) =>
            match runLoop rest s1 with
            | .error sErr => Except.error sErr
            | .ok (s2, evs) => Except.ok (s2, ev ++ evs)

/-- Embedding of `ModalicClient.run` (client.py lines 113-120): `_run` inside
a try/except that catches every exception, sets the exit event, and returns
normally.  The caller of `start()` therefore never sees the exception. -/
def run {Raw M U : Type} (envs : List (StepEnv Raw M U)) (s : ClientState M) :
    ClientState M × List (Ev M U) :=
  match runLoop envs s with
  | .ok r => r
  | .error sErr => ({ sErr with exit_event := true }, [])

/-- Embedding of `ModalicClient.stop` (client.py lines 183-189): set the exit
event, then acquire and release the step lock.  The `on_stop` call is
commented out in the source, so no user callback runs. -/
def modalicStop {M U : Type} (s : ClientState M) : ClientState M × List (Ev M U) :=
  ({ s with exit_event := true }, [])

/-- Embedding of `MosaicClient.stop` from the duplicate variant
(`src/bindings/python/python_sdk/client.py` lines 82-87): set the exit event,
then invoke the user client's `on_stop`. -/
def mosaicStop {M U : Type} (s : ClientState M) : ClientState M × List (Ev M U) :=
  ({ s with exit_event := true }, [Ev.onStopCalled])

/-- Arguments with which the external `modalic_sdk.Client` is constructed in
`ModalicClient.__init__` (client.py line 23). -/
structure ModalicSdkClientArgs where
  server_address : String
  scalar : ℚ
  state : Option (List ℤ)
deriving DecidableEq

/-- Embedding of the construction performed by `ModalicClient.__init__`
(client.py lines 21-23): the coordinator client receives the address, the
scalar and the state. -/
def modalicClientInit (server_address : String) (state : Option (List ℤ))
    (scalar : ℚ) : ModalicSdkClientArgs :=
  { server_address := server_address, scalar := scalar, state := state }

/-- Embedding of `spawn_client` (client.py lines 231-244): it constructs
`ModalicClient(server_address, client)`, passing neither its `state` nor its
`scalar` argument, so the constructor's defaults `state=None, scalar=1.0`
apply. -/
def spawn_client (server_address : String) (state : Option (List ℤ))
    (scalar : ℚ) : ModalicSdkClientArgs :=
  modalicClientInit server_address none 1

/-!
Interleaving model for the shutdown protocol.  The loop thread executes
`_run`/`_step` (client.py lines 122-160) and a second thread executes `stop`
(lines 183-189).  Each program counter position is one atomic region; the
step body runs while the loop thread holds the step lock.  The counter
`startsAfterReturn` counts steps that acquire the lock after `stop` has
already returned.
-/

/-- Program counter of the loop thread: about to test the exit event, about
to acquire the step lock, inside the step body (holding the lock), in the
idle wait after releasing the lock, or done (loop exited). -/
inductive LoopPc where
  | checkExit : LoopPc
  | acquiring : LoopPc
  | inStep : LoopPc
  | waiting : LoopPc
  | done : LoopPc
deriving DecidableEq

/-- Program counter of the `stop` caller: not yet called, about to acquire
the step lock (exit event already set), holding the lock about to release,
or returned. -/
inductive StopPc where
  | idle : StopPc
  | acquiringS : StopPc
  | releasingS : StopPc
  | returned : StopPc
deriving DecidableEq

/-- Joint state of the loop thread, the `stop` caller, the exit event and the
step lock. -/
structure SysState where
  lp : LoopPc
  sp : StopPc
  exitFlag : Bool
  lockLoop : Bool
  lockStop : Bool
  startsAfterReturn : ℕ
deriving DecidableEq

/-- Initial joint state: loop at the top of `_run`, `stop` not yet called,
exit event clear, lock free. -/
def sysInit : SysState :=
  { lp := .checkExit, sp := .idle, exitFlag := false, lockLoop := false
    lockStop := false, startsAfterReturn := 0 }

/-- One interleaved transition of the loop thread or the `stop` caller.
The loop tests the exit event, acquires the lock (counting the start if
`stop` has returned), runs the step body, releases and waits; `stop` sets the
exit event, then acquires and releases the lock.  Lock acquisition is only
enabled while no thread holds the lock. -/
inductive SysStep : SysState → SysState → Prop where
  | loopExit (s : SysState) :
      s.lp = .checkExit → s.exitFlag = true →
      SysStep s { s with lp := .done }
  | loopEnter (s : SysState) :
      s.lp = .checkExit → s.exitFlag = false →
      SysStep s { s with lp := .acquiring }
  | loopAcquire (s : SysState) :
      s.lp = .acquiring → s.lockLoop = false → s.lockStop = false →
      SysStep s { s with lp := .inStep, lockLoop := true,
                         startsAfterReturn := s.startsAfterReturn +
                           (if s.sp = .returned then 1 else 0) }
  | loopRelease (s : SysState) :
      s.lp = .inStep →
      SysStep s { s with lp := .waiting, lockLoop := false }
  | loopWake (s : SysState) :
      s.lp = .waiting →
      SysStep s { s with lp := .checkExit }
  | stopSet (s : SysState) :
      s.sp = .idle →
      SysStep s { s with sp := .acquiringS, exitFlag := true }
  | stopAcquire (s : SysState) :
      s.sp = .acquiringS → s.lockLoop = false → s.lockStop = false →
      SysStep s { s with sp := .releasingS, lockStop := true }
  | stopReturn (s : SysState) :
      s.sp = .releasingS →
      SysStep s { s with sp := .returned, lockStop := false }

/-- Reachability from the initial joint state. -/
def sysReachable (s : SysState) : Prop :=
  Relation.ReflTransGen SysStep sysInit s

/-- A concrete reachable state exhibiting the check-then-acquire race: the
loop thread passed its exit test before `stop` set the event, `stop` acquired
and released the free lock and returned, and only then did the loop thread
acquire the lock and begin a step. -/
def sysRace : SysState :=
  { lp := .inStep, sp := .returned, exitFlag := true, lockLoop := true
    lockStop := false, startsAfterReturn := 1 }

/-!
Pure-environment views of the step.  When every user callback returns
normally, `stepE` cannot raise; the following functions give the resulting
state and event trace directly.  Lemmas below prove them equal to the
`Except.ok` image of the embedded functions, so claim proofs can reason on
the pure views.
-/

/-- Result of `_fetch_global_model` under a pure environment. -/
def fetchPure {Raw M U : Type} (e : PEnv Raw M U) (s : ClientState M) :
    ClientState M :=
  match e.fetch with
  | .unavailable => { s with error_on_fetch_global_model := true }
  | .dataTypeMismatch => { s with error_on_fetch_global_model := true }
  | .success none =>
      { s with global_model := none, error_on_fetch_global_model := false }
  | .success (some raw) =>
      { s with global_model := some (e.deserialize raw),
               error_on_fetch_global_model := false }

/-- Result of `_train` under a pure environment. -/
def trainPure {Raw M U : Type} (e : PEnv Raw M U) (s : ClientState M) :
    ClientState M × List (Ev M U) :=
  match e.submit (e.train s.global_model) with
  | .uninitialized =>
      ({ s with exit_event := true },
        [Ev.trainCalled s.global_model,
          Ev.setModelCalled (e.train s.global_model)])
  | .success =>
      (s, [Ev.trainCalled s.global_model,
            Ev.setModelCalled (e.train s.global_model)])
  | .lengthMismatch =>
      (s, [Ev.trainCalled s.global_model,
            Ev.setModelCalled (e.train s.global_model)])
  | .dataTypeMismatch =>
      (s, [Ev.trainCalled s.global_model,
            Ev.setModelCalled (e.train s.global_model)])

/-- Result of `_step` under a pure environment. -/
def stepPure {Raw M U : Type} (e : PEnv Raw M U) (s : ClientState M) :
    ClientState M × List (Ev M U) :=
  let s1 := if e.new_global_model || s.error_on_fetch_global_model then
              fetchPure e s
            else s
  let ev1 := if (e.new_global_model || s.error_on_fetch_global_model)
                && !s1.error_on_fetch_global_model then
               [Ev.onNewGlobalModel s1.global_model]
             else ([] : List (Ev M U))
  let tr := if e.should_set_model then
              (if e.participate && !s1.error_on_fetch_global_model then
                trainPure e s1
               else (s1, ([] : List (Ev M U))))
            else (s1, ([] : List (Ev M U)))
  ({ tr.1 with poll_attempt := stepAttempt tr.1.poll_attempt e.made_progress },
    ev1 ++ tr.2)

/-- Sequence of idle-wait durations produced by a given number of consecutive
steps with `made_progress = false`, starting from a given scheduler state. -/
def idleSeq : Backoff → ℕ → List ℚ
  | _, 0 => []
  | b, n + 1 => (stepWait b false).1 :: idleSeq (stepWait b false).2 n

/-- Equality of embedded call results is decidable, so concrete runs can be
checked by evaluation. -/
instance {E A : Type} [DecidableEq E] [DecidableEq A] : DecidableEq (Except E A)
  | .error a, .error b =>
      if h : a = b then .isTrue (by rw [h])
      else .isFalse (fun hc => h (by injection hc))
  | .error _, .ok _ => .isFalse (fun hc => Except.noConfusion hc)
  | .ok _, .error _ => .isFalse (fun hc => Except.noConfusion hc)
  | .ok a, .ok b =>
      if h : a = b then .isTrue (by rw [h])
      else .isFalse (fun hc => h (by injection hc))

def c1env : PEnv Nat Nat Nat :=
  { new_global_model := true, should_set_model := true, made_progress := false
    fetch := .success (some 5), deserialize := id, participate := true
    train := fun _ => 7, submit := fun _ => .success }

def c1state : ClientState Nat :=
  { global_model := some 5, error_on_fetch_global_model := false
    exit_event := false, poll_attempt := 1 }

def c1evs : List (Ev Nat Nat) :=
  [.onNewGlobalModel (some 5), .trainCalled (some 5), .setModelCalled 7]

def c1fail : PEnv Nat Nat Nat :=
  { c1env with fetch := .unavailable }

def c1errState : ClientState Nat :=
  { initState Nat with error_on_fetch_global_model := true }

def FetchOutcome.isSuccess {Raw : Type} : FetchOutcome Raw → Bool
  | .success _ => true
  | _ => false

def c2env : PEnv Nat Nat Nat :=
  { new_global_model := true, should_set_model := false, made_progress := false
    fetch := .success none, deserialize := id, participate := true
    train := fun _ => 0, submit := fun _ => .success }

def c3env : PEnv Nat Nat Nat :=
  { c1env with fetch := .success (some 11) }

def c4env : PEnv Nat Nat Nat :=
  { c1env with new_global_model := false, submit := fun _ => .lengthMismatch }

def c4envFatal : PEnv Nat Nat Nat :=
  { c4env with submit := fun _ => .uninitialized }

def c5env : StepEnv Nat Nat Nat :=
  { new_global_model := false, should_set_model := true, made_progress := false
    fetch := .success none, deserialize := fun r => Except.ok r
    onNewGlobal := fun _ => Except.ok (), participate := Except.ok true
    train := fun _ => Except.error (), submit := fun _ => .success }

def c8state : ClientState Nat :=
  { global_model := some 3, error_on_fetch_global_model := false
    exit_event := false, poll_attempt := 2 }

def c9state : ClientState Nat :=
  { initState Nat with exit_event := true }

def c9out : ClientState Nat :=
  { global_model := some 5, error_on_fetch_global_model := false
    exit_event := true, poll_attempt := 1 }

def sysInv (s : SysState) : Prop :=
  (s.sp ≠ .idle → s.exitFlag = true) ∧ s.startsAfterReturn ≤ 1 ∧
  (s.startsAfterReturn = 1 → s.exitFlag = true ∧ s.lp ≠ .acquiring)

@[simp] lemma toEnv_new_global_model {Raw M U : Type} (e : PEnv Raw M U) :
    e.toEnv.new_global_model = e.new_global_model := rfl

@[simp] lemma toEnv_should_set_model {Raw M U : Type} (e : PEnv Raw M U) :
    e.toEnv.should_set_model = e.should_set_model := rfl

@[simp] lemma toEnv_made_progress {Raw M U : Type} (e : PEnv Raw M U) :
    e.toEnv.made_progress = e.made_progress := rfl

@[simp] lemma toEnv_fetch {Raw M U : Type} (e : PEnv Raw M U) :
    e.toEnv.fetch = e.fetch := rfl

@[simp] lemma toEnv_deserialize {Raw M U : Type} (e : PEnv Raw M U) (r : Raw) :
    e.toEnv.deserialize r = Except.ok (e.deserialize r) := rfl

@[simp] lemma toEnv_onNewGlobal {Raw M U : Type} (e : PEnv Raw M U) (m : Option M) :
    e.toEnv.onNewGlobal m = Except.ok () := rfl

@[simp] lemma toEnv_participate {Raw M U : Type} (e : PEnv Raw M U) :
    e.toEnv.participate = Except.ok e.participate := rfl

@[simp] lemma toEnv_train {Raw M U : Type} (e : PEnv Raw M U) (m : Option M) :
    e.toEnv.train m = Except.ok (e.train m) := rfl

@[simp] lemma toEnv_submit {Raw M U : Type} (e : PEnv Raw M U) (u : U) :
    e.toEnv.submit u = e.submit u := rfl

lemma fetch_toEnv {Raw M U : Type} (e : PEnv Raw M U) (s : ClientState M) :
    fetchGlobalModel e.toEnv s = Except.ok (fetchPure e s) := by
  cases h : e.fetch with
  | unavailable => simp [fetchGlobalModel, fetchPure, h]
  | dataTypeMismatch => simp [fetchGlobalModel, fetchPure, h]
  | success o => cases o <;> simp [fetchGlobalModel, fetchPure, h]

lemma trainStep_toEnv {Raw M U : Type} (e : PEnv Raw M U) (s : ClientState M) :
    trainStep e.toEnv s = Except.ok (trainPure e s) := by
  cases h : e.submit (e.train s.global_model) <;>
    simp [trainStep, trainPure, h]

lemma stepE_toEnv {Raw M U : Type} (e : PEnv Raw M U) (s : ClientState M) :
    stepE e.toEnv s = Except.ok (stepPure e s) := by
  cases hgate : (e.new_global_model || s.error_on_fetch_global_model) with
  | false =>
    cases hs : e.should_set_model with
    | false =>
      simp [stepE, fetchPhase, notifyPhase, submitPhase, stepPure, hgate, hs]
    | true =>
      cases hp : (e.participate && !s.error_on_fetch_global_model) <;>
        simp [stepE, fetchPhase, notifyPhase, submitPhase, stepPure, hgate,
          hs, hp, trainStep_toEnv]
  | true =>
    cases herr : (fetchPure e s).error_on_fetch_global_model with
    | false =>
      cases hs : e.should_set_model with
      | false =>
        simp [stepE, fetchPhase, notifyPhase, submitPhase, stepPure, hgate,
          hs, fetch_toEnv, herr]
      | true =>
        cases hp : e.participate <;>
          simp [stepE, fetchPhase, notifyPhase, submitPhase, stepPure, hgate,
            hs, hp, fetch_toEnv, herr, trainStep_toEnv]
    | true =>
      cases hs : e.should_set_model <;>
        simp [stepE, fetchPhase, notifyPhase, submitPhase, stepPure, hgate,
          hs, fetch_toEnv, herr]

lemma trainPure_error {Raw M U : Type} (e : PEnv Raw M U) (s : ClientState M) :
    (trainPure e s).1.error_on_fetch_global_model =
      s.error_on_fetch_global_model := by
  cases h : e.submit (e.train s.global_model) <;> simp [trainPure, h]

lemma trainPure_count {Raw M U : Type} (e : PEnv Raw M U) (s : ClientState M) :
    (trainPure e s).2.countP Ev.isTrain = 1 := by
  cases h : e.submit (e.train s.global_model) <;>
    simp [trainPure, h, List.countP_cons, Ev.isTrain]

lemma c1_step_part {Raw M U : Type}
    (e : PEnv Raw M U) (s sq : ClientState M) (evs : List (Ev M U))
    (h : stepE e.toEnv s = Except.ok (sq, evs)) :
    evs.countP Ev.isTrain =
      (if e.should_set_model && e.participate
          && !sq.error_on_fetch_global_model then 1 else 0) := by
  rw [stepE_toEnv] at h
  injection h with h
  have hq : (stepPure e s).1 = sq := by rw [h]
  have he : (stepPure e s).2 = evs := by rw [h]
  subst hq; subst he
  cases hgate : (e.new_global_model || s.error_on_fetch_global_model) with
  | false =>
    cases hs : e.should_set_model with
    | false => simp [stepPure, hgate, hs, List.countP_append, Ev.isTrain]
    | true =>
      cases hp : (e.participate && !s.error_on_fetch_global_model) <;>
        simp [stepPure, hgate, hs, hp, List.countP_append, Ev.isTrain,
          trainPure_count, trainPure_error]
  | true =>
    cases herr : (fetchPure e s).error_on_fetch_global_model with
    | false =>
      cases hs : e.should_set_model with
      | false => simp [stepPure, hgate, hs, herr, List.countP_append, Ev.isTrain]
      | true =>
        cases hp : e.participate <;>
          simp [stepPure, hgate, hs, hp, herr, List.countP_append, Ev.isTrain,
            trainPure_count, trainPure_error]
    | true =>
      cases hs : e.should_set_model <;>
        simp [stepPure, hgate, hs, herr, List.countP_append, Ev.isTrain]

lemma fetchPure_exit {Raw M U : Type} (e : PEnv Raw M U) (s : ClientState M) :
    (fetchPure e s).exit_event = s.exit_event := by
  cases h : e.fetch with
  | success o => cases o <;> simp [fetchPure, h]
  | unavailable => simp [fetchPure, h]
  | dataTypeMismatch => simp [fetchPure, h]

lemma stepPure_fetchfail {Raw M U : Type} (e : PEnv Raw M U) (s : ClientState M)
    (hserr : s.error_on_fetch_global_model = true)
    (hf : e.fetch = FetchOutcome.unavailable ∨
      e.fetch = FetchOutcome.dataTypeMismatch) :
    (stepPure e s).1.error_on_fetch_global_model = true ∧
    (stepPure e s).1.exit_event = s.exit_event ∧
    (stepPure e s).2.countP Ev.isTrain = 0 := by
  have hgate : (e.new_global_model || s.error_on_fetch_global_model) = true := by
    simp [hserr]
  have herr1 : (fetchPure e s).error_on_fetch_global_model = true := by
    rcases hf with h | h <;> simp [fetchPure, h]
  cases hs : e.should_set_model <;>
    simp [stepPure, hgate, herr1, hs, Ev.isTrain, List.countP_append,
      fetchPure_exit]

lemma runLoop_fetchfail {Raw M U : Type} :
    ∀ (envs : List (PEnv Raw M U)) (s sq : ClientState M) (evs : List (Ev M U)),
    s.error_on_fetch_global_model = true →
    (∀ e ∈ envs, e.fetch = FetchOutcome.unavailable ∨
      e.fetch = FetchOutcome.dataTypeMismatch) →
    runLoop (envs.map PEnv.toEnv) s = Except.ok (sq, evs) →
    evs.countP Ev.isTrain = 0 ∧ sq.error_on_fetch_global_model = true
  | [], s, sq, evs, hserr, _, h => by
      simp [runLoop] at h
      rcases h with ⟨rfl, rfl⟩
      exact ⟨rfl, hserr⟩
  | e :: rest, s, sq, evs, hserr, hf, h => by
      by_cases hex : s.exit_event
      · simp [runLoop, hex] at h
        rcases h with ⟨rfl, rfl⟩
        exact ⟨rfl, hserr⟩
      · have hff := stepPure_fetchfail e s hserr (hf e (by simp))
        rcases hr : runLoop (List.map PEnv.toEnv rest) (stepPure e s).1 with sErr | r
        · simp [runLoop, hex, stepE_toEnv, hr] at h
        · obtain ⟨s2, evs2⟩ := r
          simp [runLoop, hex, stepE_toEnv, hr] at h
          have ih := runLoop_fetchfail rest (stepPure e s).1 s2 evs2 hff.1
            (fun x hx => hf x (by simp [hx])) hr
          rcases h with ⟨rfl, rfl⟩
          refine ⟨?_, ih.2⟩
          rw [List.countP_append, hff.2.2, ih.1]

/-- C1: per step, `train_single_update` runs exactly when the coordinator's
submit flag is set, the user opts in, and the fetch-error flag (as left by
this step's fetch phase) is clear; and over any run whose every fetch attempt
fails, starting with the flag set, no training occurs and the flag stays
set. -/
theorem claim_C1 {Raw M U : Type} :
    (∀ (e : PEnv Raw M U) (s sq : ClientState M) (evs : List (Ev M U)),
      stepE e.toEnv s = Except.ok (sq, evs) →
      evs.countP Ev.isTrain =
        (if e.should_set_model && e.participate
            && !sq.error_on_fetch_global_model then 1 else 0)) ∧
    (∀ (envs : List (PEnv Raw M U)) (s sq : ClientState M)
        (evs : List (Ev M U)),
      s.error_on_fetch_global_model = true →
      (∀ e ∈ envs, e.fetch = FetchOutcome.unavailable ∨
        e.fetch = FetchOutcome.dataTypeMismatch) →
      runLoop (envs.map PEnv.toEnv) s = Except.ok (sq, evs) →
      evs.countP Ev.isTrain = 0 ∧ sq.error_on_fetch_global_model = true) :=
  ⟨c1_step_part, fun envs s sq evs h1 h2 h3 =>
    runLoop_fetchfail envs s sq evs h1 h2 h3⟩

theorem claim_C1_witness :
    (List.countP Ev.isTrain c1evs =
      (if c1env.should_set_model && c1env.participate
          && !c1state.error_on_fetch_global_model then 1 else 0)) ∧
    (List.countP Ev.isTrain ([] : List (Ev Nat Nat)) = 0 ∧
      ({ c1errState with poll_attempt := 1 }).error_on_fetch_global_model
        = true) :=
  ⟨(@claim_C1 Nat Nat Nat).1 c1env (initState Nat) c1state c1evs (by decide),
   (@claim_C1 Nat Nat Nat).2 [c1fail] c1errState
      { c1errState with poll_attempt := 1 } [] (by decide) (by decide)
      (by decide)⟩

lemma fetchPure_error_flag {Raw M U : Type} (e : PEnv Raw M U)
    (s : ClientState M) :
    (fetchPure e s).error_on_fetch_global_model = !e.fetch.isSuccess := by
  cases h : e.fetch with
  | success o => cases o <;> simp [fetchPure, FetchOutcome.isSuccess, h]
  | unavailable => simp [fetchPure, FetchOutcome.isSuccess, h]
  | dataTypeMismatch => simp [fetchPure, FetchOutcome.isSuccess, h]

lemma trainPure_countOnNewGM {Raw M U : Type} (e : PEnv Raw M U)
    (s : ClientState M) :
    (trainPure e s).2.countP Ev.isOnNewGM = 0 := by
  cases h : e.submit (e.train s.global_model) <;>
    simp [trainPure, h, Ev.isOnNewGM]

/-- C2 (amended): `on_new_global_model` is invoked exactly once per step in
which a fetch is attempted and returns without error — with the freshly
deserialized model when one is present — and never when the fetch fails or
no fetch is attempted; but on a successful fetch returning no model it is
still invoked, with `none`. -/
theorem claim_C2 {Raw M U : Type} :
    ∀ (e : PEnv Raw M U) (s sq : ClientState M) (evs : List (Ev M U)),
    stepE e.toEnv s = Except.ok (sq, evs) →
    (evs.countP Ev.isOnNewGM =
      (if (e.new_global_model || s.error_on_fetch_global_model)
          && e.fetch.isSuccess then 1 else 0)) ∧
    (∀ r, e.fetch = FetchOutcome.success (some r) →
      (e.new_global_model || s.error_on_fetch_global_model) = true →
      Ev.onNewGlobalModel (some (e.deserialize r)) ∈ evs) := by
  intro e s sq evs h
  rw [stepE_toEnv] at h
  injection h with h
  have he : (stepPure e s).2 = evs := by rw [h]
  subst he
  constructor
  · cases hgate : (e.new_global_model || s.error_on_fetch_global_model) with
    | false =>
      cases hs : e.should_set_model with
      | false => simp [stepPure, hgate, hs, Ev.isOnNewGM]
      | true =>
        cases hp : (e.participate && !s.error_on_fetch_global_model) <;>
          simp [stepPure, hgate, hs, hp, List.countP_append, Ev.isOnNewGM,
            trainPure_countOnNewGM]
    | true =>
      cases hsu : e.fetch.isSuccess with
      | false =>
        have herr : (fetchPure e s).error_on_fetch_global_model = true := by
          rw [fetchPure_error_flag, hsu]; rfl
        cases hs : e.should_set_model <;>
          simp [stepPure, hgate, hs, herr, Ev.isOnNewGM, List.countP_append]
      | true =>
        have herr : (fetchPure e s).error_on_fetch_global_model = false := by
          rw [fetchPure_error_flag, hsu]; rfl
        cases hs : e.should_set_model with
        | false =>
          simp [stepPure, hgate, hs, herr, Ev.isOnNewGM, List.countP_append]
        | true =>
          cases hp : e.participate <;>
            simp [stepPure, hgate, hs, hp, herr, Ev.isOnNewGM,
              List.countP_append, trainPure_countOnNewGM]
  · intro r hr hgate
    have herr : (fetchPure e s).error_on_fetch_global_model = false := by
      simp [fetchPure_error_flag, hr, FetchOutcome.isSuccess]
    have hgm : (fetchPure e s).global_model = some (e.deserialize r) := by
      simp [fetchPure, hr]
    simp [stepPure, hgate, herr, hgm]

/-- C2 counterexample: the coordinator reports a new global model, the fetch
succeeds but returns no model ("no model yet"); the claim says
`on_new_global_model` is never invoked in this case, yet the step invokes it
with `none` (client.py line 141 tests only the error flag, not presence). -/
theorem claim_C2_counterexample :
    stepE c2env.toEnv (initState Nat) =
      Except.ok ({ initState Nat with global_model := none, poll_attempt := 1 },
        [Ev.onNewGlobalModel none]) := by decide

theorem claim_C2_witness :
    (List.countP Ev.isOnNewGM
        ([Ev.onNewGlobalModel (some 5), Ev.trainCalled (some 5),
          Ev.setModelCalled 7] : List (Ev Nat Nat)) =
      (if (c1env.new_global_model
            || (initState Nat).error_on_fetch_global_model)
          && c1env.fetch.isSuccess then 1 else 0)) ∧
    Ev.onNewGlobalModel (some (c1env.deserialize 5)) ∈ c1evs :=
  ⟨(claim_C2 c1env (initState Nat) c1state c1evs (by decide)).1,
   (claim_C2 c1env (initState Nat) c1state c1evs (by decide)).2 5 (by decide)
     (by decide)⟩

/-- C3: a recoverable fetch failure sets the error flag and leaves the cached
model untouched; a successful fetch with no model caches `none` and clears
the flag; a successful fetch with a model caches the user-deserialized
result and clears the flag. -/
theorem claim_C3 {Raw M U : Type} :
    ∀ (e : PEnv Raw M U) (s : ClientState M),
    ((e.fetch = FetchOutcome.unavailable ∨
        e.fetch = FetchOutcome.dataTypeMismatch) →
      fetchGlobalModel e.toEnv s =
        Except.ok { s with error_on_fetch_global_model := true }) ∧
    (e.fetch = FetchOutcome.success none →
      fetchGlobalModel e.toEnv s =
        Except.ok { s with global_model := none,
                           error_on_fetch_global_model := false }) ∧
    (∀ r, e.fetch = FetchOutcome.success (some r) →
      fetchGlobalModel e.toEnv s =
        Except.ok { s with global_model := some (e.deserialize r),
                           error_on_fetch_global_model := false }) := by
  intro e s
  refine ⟨fun hf => ?_, fun hf => ?_, fun r hf => ?_⟩
  · rcases hf with h | h <;> simp [fetchGlobalModel, h]
  · simp [fetchGlobalModel, hf]
  · simp [fetchGlobalModel, hf]

theorem claim_C3_witness :
    fetchGlobalModel c3env.toEnv (initState Nat) =
      Except.ok { initState Nat with
                   global_model := some 11,
                   error_on_fetch_global_model := false } :=
  (claim_C3 c3env (initState Nat)).2.2 11 (by decide)

lemma runLoop_exit {Raw M U : Type} (envs : List (StepEnv Raw M U))
    (s : ClientState M) (h : s.exit_event = true) :
    runLoop envs s = Except.ok (s, []) := by
  cases envs <;> simp [runLoop, h]

/-- C4: a submission rejected for length or data-type mismatch leaves the
client state unchanged — in particular the exit event stays clear and the
loop continues; a submission rejected because the participant is
uninitialized sets the exit event, and a set exit event makes the loop stop
before any further step. -/
theorem claim_C4 {Raw M U : Type} :
    (∀ (e : PEnv Raw M U) (s : ClientState M),
      ((e.submit (e.train s.global_model) = SubmitOutcome.lengthMismatch ∨
          e.submit (e.train s.global_model) = SubmitOutcome.dataTypeMismatch) →
        trainStep e.toEnv s =
          Except.ok (s, [Ev.trainCalled s.global_model,
            Ev.setModelCalled (e.train s.global_model)])) ∧
      (e.submit (e.train s.global_model) = SubmitOutcome.uninitialized →
        trainStep e.toEnv s =
          Except.ok ({ s with exit_event := true },
            [Ev.trainCalled s.global_model,
              Ev.setModelCalled (e.train s.global_model)]))) ∧
    (∀ (envs : List (StepEnv Raw M U)) (s : ClientState M),
      s.exit_event = true → runLoop envs s = Except.ok (s, [])) := by
  refine ⟨fun e s => ⟨fun hf => ?_, fun hf => ?_⟩, runLoop_exit⟩
  · rcases hf with h | h <;> simp [trainStep, h]
  · simp [trainStep, hf]

theorem claim_C4_witness :
    (trainStep c4env.toEnv (initState Nat) =
      Except.ok (initState Nat, [Ev.trainCalled none, Ev.setModelCalled 7])) ∧
    (trainStep c4envFatal.toEnv (initState Nat) =
      Except.ok ({ initState Nat with exit_event := true },
        [Ev.trainCalled none, Ev.setModelCalled 7])) ∧
    runLoop ([] : List (StepEnv Nat Nat Nat))
        { initState Nat with exit_event := true } =
      Except.ok ({ initState Nat with exit_event := true }, []) :=
  ⟨(claim_C4.1 c4env (initState Nat)).1 (by decide),
   (claim_C4.1 c4envFatal (initState Nat)).2 (by decide),
   claim_C4.2 [] { initState Nat with exit_event := true } (by decide)⟩

/-- C5: `run` is total — every outcome of the loop body is mapped to a
normal return, so no failure reaches the caller of `start()`.  When the loop
body ends in an unclassified failure, `run` returns the failure-time state
with the exit event set and performs no further steps; when the loop body
returns normally, `run` returns its result unchanged. -/
theorem claim_C5 {Raw M U : Type} :
    ∀ (envs : List (StepEnv Raw M U)) (s : ClientState M),
    (∀ sErr, runLoop envs s = Except.error sErr →
      run envs s = ({ sErr with exit_event := true }, []) ∧
      (run envs s).1.exit_event = true) ∧
    (∀ r, runLoop envs s = Except.ok r → run envs s = r) := by
  intro envs s
  constructor
  · intro sErr h
    constructor <;> simp [run, h]
  · intro r h
    simp [run, h]

theorem claim_C5_witness :
    run [c5env] (initState Nat) =
      ({ initState Nat with exit_event := true }, []) :=
  ((claim_C5 [c5env] (initState Nat)).1 (initState Nat) (by decide)).1

lemma trainStep_no_onStop {Raw M U : Type} {env : StepEnv Raw M U}
    {s s1 : ClientState M} {evs : List (Ev M U)}
    (h : trainStep env s = Except.ok (s1, evs)) :
    evs.countP Ev.isOnStop = 0 := by
  unfold trainStep at h
  cases ht : env.train s.global_model with
  | error a => rw [ht] at h; exact absurd h (by simp)
  | ok u =>
      simp only [ht] at h
      cases hs : env.submit u <;>
        (simp only [hs] at h; injection h with h;
         have hev : evs = [Ev.trainCalled s.global_model, Ev.setModelCalled u] :=
           (congrArg Prod.snd h).symm
         rw [hev]; simp [Ev.isOnStop])

lemma notifyPhase_no_onStop {Raw M U : Type} {env : StepEnv Raw M U}
    {gate : Bool} {s1 : ClientState M} {evs : List (Ev M U)}
    (h : notifyPhase env gate s1 = Except.ok evs) :
    evs.countP Ev.isOnStop = 0 := by
  unfold notifyPhase at h
  split at h
  · cases hc : env.onNewGlobal s1.global_model with
    | error a => simp only [hc] at h; exact absurd h (by simp)
    | ok a =>
        simp only [hc] at h
        injection h with h
        rw [← h]
        simp [Ev.isOnStop]
  · injection h with h
    rw [← h]
    simp

lemma submitPhase_no_onStop {Raw M U : Type} {env : StepEnv Raw M U}
    {s1 s2 : ClientState M} {evs : List (Ev M U)}
    (h : submitPhase env s1 = Except.ok (s2, evs)) :
    evs.countP Ev.isOnStop = 0 := by
  unfold submitPhase at h
  split at h
  · cases hp : env.participate with
    | error a => simp only [hp] at h; exact absurd h (by simp)
    | ok p =>
        simp only [hp] at h
        split at h
        · exact trainStep_no_onStop h
        · injection h with h
          have hev : evs = [] := (congrArg Prod.snd h).symm
          rw [hev]; simp
  · injection h with h
    have hev : evs = [] := (congrArg Prod.snd h).symm
    rw [hev]; simp

lemma stepE_no_onStop {Raw M U : Type} {env : StepEnv Raw M U}
    {s sq : ClientState M} {evs : List (Ev M U)}
    (h : stepE env s = Except.ok (sq, evs)) :
    evs.countP Ev.isOnStop = 0 := by
  unfold stepE at h
  cases hf : fetchPhase env s with
  | error a => simp only [hf] at h; exact absurd h (by simp)
  | ok s1 =>
      simp only [hf] at h
      cases hn : notifyPhase env
          (env.new_global_model || s.error_on_fetch_global_model) s1 with
      | error a => simp only [hn] at h; exact absurd h (by simp)
      | ok ev1 =>
          simp only [hn] at h
          cases hsub : submitPhase env s1 with
          | error a => simp only [hsub] at h; exact absurd h (by simp)
          | ok r =>
              obtain ⟨s2, ev2⟩ := r
              simp only [hsub] at h
              injection h with h
              have hev : evs = ev1 ++ ev2 := (congrArg Prod.snd h).symm
              rw [hev, List.countP_append, notifyPhase_no_onStop hn,
                submitPhase_no_onStop hsub]

lemma runLoop_no_onStop {Raw M U : Type} :
    ∀ (envs : List (StepEnv Raw M U)) (s sq : ClientState M)
      (evs : List (Ev M U)),
    runLoop envs s = Except.ok (sq, evs) → evs.countP Ev.isOnStop = 0
  | [], s, sq, evs, h => by
      simp [runLoop] at h
      rw [h.2]
      rfl
  | env :: rest, s, sq, evs, h => by
      by_cases hex : s.exit_event
      · simp [runLoop, hex] at h
        rw [h.2]
        rfl
      · rw [runLoop, if_neg hex] at h
        cases hst : stepE env s with
        | error a => simp only [hst] at h; exact absurd h (by simp)
        | ok r =>
            obtain ⟨s1, ev⟩ := r
            simp only [hst] at h
            cases hr : runLoop rest s1 with
            | error a => simp only [hr] at h; exact absurd h (by simp)
            | ok r2 =>
                obtain ⟨s2, evs2⟩ := r2
                simp only [hr] at h
                injection h with h
                have hev : evs = ev ++ evs2 := (congrArg Prod.snd h).symm
                rw [hev, List.countP_append, stepE_no_onStop hst,
                  runLoop_no_onStop rest s1 s2 evs2 hr]

/-- C8 counterexample: a normal termination of the `ModalicClient` through
`stop()` invokes `on_stop` zero times, not exactly once — the call is
commented out in the source (client.py line 189). -/
theorem claim_C8_counterexample :
    (modalicStop c8state : ClientState Nat × List (Ev Nat Nat)).1.exit_event
        = true ∧
    (modalicStop c8state : ClientState Nat × List (Ev Nat Nat)).2.countP
        Ev.isOnStop = 0 := by decide

/-- C8 (amended): the `ModalicClient` never invokes `on_stop` — its `stop()`
does not (the call is commented out in the source) and no step or loop
outcome emits the call, so its failure boundary does not either; the
`MosaicClient` variant invokes `on_stop` exactly once per `stop()` call, and
its failure boundary does not invoke it. -/
theorem claim_C8 {Raw M U : Type} :
    (∀ s : ClientState M,
      ((modalicStop s : ClientState M × List (Ev M U)).2.countP Ev.isOnStop
          = 0) ∧
      ((mosaicStop s : ClientState M × List (Ev M U)).2.countP Ev.isOnStop
          = 1)) ∧
    (∀ (envs : List (StepEnv Raw M U)) (s : ClientState M),
      (run envs s).2.countP Ev.isOnStop = 0) := by
  constructor
  · intro s
    constructor
    · simp [modalicStop]
    · simp [mosaicStop, Ev.isOnStop]
  · intro envs s
    cases hr : runLoop envs s with
    | error a => simp [run, hr]
    | ok r =>
        obtain ⟨sq, evs⟩ := r
        have := runLoop_no_onStop envs s sq evs hr
        simp [run, hr, this]

/-- C10: the `state` and `scalar` arguments accepted by `spawn_client` are
ignored; the coordinator client is always constructed with the scalar `1.0`
and no prior state, whatever was passed. -/
theorem claim_C10 :
    ∀ (addr : String) (st : Option (List ℤ)) (sc : ℚ),
      spawn_client addr st sc =
        { server_address := addr, scalar := 1, state := none } := by
  intro addr st sc
  rfl

lemma fetchGlobalModel_err {Raw M U : Type} {env : StepEnv Raw M U}
    {s t : ClientState M} (h : fetchGlobalModel env s = Except.error t) :
    t = s := by
  unfold fetchGlobalModel at h
  cases hf : env.fetch with
  | unavailable => simp only [hf] at h; exact absurd h (by simp)
  | dataTypeMismatch => simp only [hf] at h; exact absurd h (by simp)
  | success o =>
      cases o with
      | none => simp only [hf] at h; exact absurd h (by simp)
      | some raw =>
          simp only [hf] at h
          cases hd : env.deserialize raw with
          | error a =>
              simp only [hd] at h
              injection h with h
              rw [h]
          | ok m => simp only [hd] at h; exact absurd h (by simp)

lemma fetchGlobalModel_exit_ok {Raw M U : Type} {env : StepEnv Raw M U}
    {s t : ClientState M} (h : fetchGlobalModel env s = Except.ok t) :
    t.exit_event = s.exit_event := by
  unfold fetchGlobalModel at h
  cases hf : env.fetch with
  | unavailable => simp only [hf] at h; injection h with h; rw [← h]
  | dataTypeMismatch => simp only [hf] at h; injection h with h; rw [← h]
  | success o =>
      cases o with
      | none => simp only [hf] at h; injection h with h; rw [← h]
      | some raw =>
          simp only [hf] at h
          cases hd : env.deserialize raw with
          | error a => simp only [hd] at h; exact absurd h (by simp)
          | ok m => simp only [hd] at h; injection h with h; rw [← h]

lemma trainStep_err {Raw M U : Type} {env : StepEnv Raw M U}
    {s t : ClientState M} (h : trainStep env s = Except.error t) : t = s := by
  unfold trainStep at h
  cases ht : env.train s.global_model with
  | error a => simp only [ht] at h; injection h with h; rw [h]
  | ok u =>
      simp only [ht] at h
      cases hs : env.submit u <;>
        (simp only [hs] at h; exact absurd h (by simp))

lemma trainStep_exit_mono {Raw M U : Type} {env : StepEnv Raw M U}
    {s t : ClientState M} {evs : List (Ev M U)}
    (hx : s.exit_event = true) (h : trainStep env s = Except.ok (t, evs)) :
    t.exit_event = true := by
  unfold trainStep at h
  cases ht : env.train s.global_model with
  | error a => simp only [ht] at h; exact absurd h (by simp)
  | ok u =>
      simp only [ht] at h
      cases hs : env.submit u <;>
        (simp only [hs] at h; injection h with h;
         have hT := congrArg Prod.fst h; simp at hT; rw [← hT])
      all_goals simp [hx]

lemma fetchPhase_err {Raw M U : Type} {env : StepEnv Raw M U}
    {s t : ClientState M} (h : fetchPhase env s = Except.error t) : t = s := by
  unfold fetchPhase at h
  split at h
  · exact fetchGlobalModel_err h
  · exact absurd h (by simp)

lemma fetchPhase_exit_ok {Raw M U : Type} {env : StepEnv Raw M U}
    {s t : ClientState M} (h : fetchPhase env s = Except.ok t) :
    t.exit_event = s.exit_event := by
  unfold fetchPhase at h
  split at h
  · exact fetchGlobalModel_exit_ok h
  · injection h with h; rw [← h]

lemma notifyPhase_err {Raw M U : Type} {env : StepEnv Raw M U} {gate : Bool}
    {s1 t : ClientState M} (h : notifyPhase env gate s1 = Except.error t) :
    t = s1 := by
  unfold notifyPhase at h
  split at h
  · cases hc : env.onNewGlobal s1.global_model with
    | error a => simp only [hc] at h; injection h with h; rw [h]
    | ok a => simp only [hc] at h; exact absurd h (by simp)
  · exact absurd h (by simp)

lemma submitPhase_err {Raw M U : Type} {env : StepEnv Raw M U}
    {s1 t : ClientState M} (h : submitPhase env s1 = Except.error t) :
    t = s1 := by
  unfold submitPhase at h
  split at h
  · cases hp : env.participate with
    | error a => simp only [hp] at h; injection h with h; rw [h]
    | ok p =>
        simp only [hp] at h
        split at h
        · exact trainStep_err h
        · exact absurd h (by simp)
  · exact absurd h (by simp)

lemma submitPhase_exit_mono {Raw M U : Type} {env : StepEnv Raw M U}
    {s1 t : ClientState M} {evs : List (Ev M U)}
    (hx : s1.exit_event = true)
    (h : submitPhase env s1 = Except.ok (t, evs)) : t.exit_event = true := by
  unfold submitPhase at h
  split at h
  · cases hp : env.participate with
    | error a => simp only [hp] at h; exact absurd h (by simp)
    | ok p =>
        simp only [hp] at h
        split at h
        · exact trainStep_exit_mono hx h
        · injection h with h
          have hT := congrArg Prod.fst h
          simp at hT
          rw [← hT]
          exact hx
  · injection h with h
    have hT := congrArg Prod.fst h
    simp at hT
    rw [← hT]
    exact hx

lemma stepE_exit_mono_ok {Raw M U : Type} {env : StepEnv Raw M U}
    {s t : ClientState M} {evs : List (Ev M U)}
    (hx : s.exit_event = true) (h : stepE env s = Except.ok (t, evs)) :
    t.exit_event = true := by
  unfold stepE at h
  cases hf : fetchPhase env s with
  | error a => simp only [hf] at h; exact absurd h (by simp)
  | ok s1 =>
      have hx1 : s1.exit_event = true := by
        rw [fetchPhase_exit_ok hf]; exact hx
      simp only [hf] at h
      cases hn : notifyPhase env
          (env.new_global_model || s.error_on_fetch_global_model) s1 with
      | error a => simp only [hn] at h; exact absurd h (by simp)
      | ok ev1 =>
          simp only [hn] at h
          cases hsub : submitPhase env s1 with
          | error a => simp only [hsub] at h; exact absurd h (by simp)
          | ok r =>
              obtain ⟨s2, ev2⟩ := r
              simp only [hsub] at h
              injection h with h
              have hT := congrArg Prod.fst h
              simp at hT
              rw [← hT]
              show s2.exit_event = true
              exact submitPhase_exit_mono hx1 hsub

lemma stepE_exit_mono_err {Raw M U : Type} {env : StepEnv Raw M U}
    {s t : ClientState M}
    (hx : s.exit_event = true) (h : stepE env s = Except.error t) :
    t.exit_event = true := by
  unfold stepE at h
  cases hf : fetchPhase env s with
  | error a =>
      simp only [hf] at h
      injection h with h
      rw [← h, fetchPhase_err hf]
      exact hx
  | ok s1 =>
      have hx1 : s1.exit_event = true := by
        rw [fetchPhase_exit_ok hf]; exact hx
      simp only [hf] at h
      cases hn : notifyPhase env
          (env.new_global_model || s.error_on_fetch_global_model) s1 with
      | error a =>
          simp only [hn] at h
          injection h with h
          rw [← h, notifyPhase_err hn]
          exact hx1
      | ok ev1 =>
          simp only [hn] at h
          cases hsub : submitPhase env s1 with
          | error a =>
              simp only [hsub] at h
              injection h with h
              rw [← h, submitPhase_err hsub]
              exact hx1
          | ok r =>
              obtain ⟨s2, ev2⟩ := r
              simp only [hsub] at h
              exact absurd h (by simp)

/-- C9: the exit flag is monotonic — starting from any state in which it is
set, every embedded operation (fetch, train-and-submit, a whole step whether
it returns or raises, the loop, and both stop variants) leaves it set; the
loop moreover performs no further step once it is set. -/
theorem claim_C9 {Raw M U : Type} :
    ∀ (env : StepEnv Raw M U) (envs : List (StepEnv Raw M U))
      (s : ClientState M),
    s.exit_event = true →
    (∀ t, fetchGlobalModel env s = Except.ok t → t.exit_event = true) ∧
    (∀ t, fetchGlobalModel env s = Except.error t → t.exit_event = true) ∧
    (∀ t evs, trainStep env s = Except.ok (t, evs) → t.exit_event = true) ∧
    (∀ t, trainStep env s = Except.error t → t.exit_event = true) ∧
    (∀ t evs, stepE env s = Except.ok (t, evs) → t.exit_event = true) ∧
    (∀ t, stepE env s = Except.error t → t.exit_event = true) ∧
    runLoop envs s = Except.ok (s, []) ∧
    (modalicStop s : ClientState M × List (Ev M U)).1.exit_event = true ∧
    (mosaicStop s : ClientState M × List (Ev M U)).1.exit_event = true := by
  intro env envs s hx
  refine ⟨fun t h => ?_, fun t h => ?_, fun t evs h => ?_, fun t h => ?_,
    fun t evs h => stepE_exit_mono_ok hx h,
    fun t h => stepE_exit_mono_err hx h,
    runLoop_exit envs s hx, rfl, rfl⟩
  · rw [fetchGlobalModel_exit_ok h]; exact hx
  · rw [fetchGlobalModel_err h]; exact hx
  · exact trainStep_exit_mono hx h
  · rw [trainStep_err h]; exact hx

theorem claim_C9_witness :
    c9state.exit_event = true ∧ c9out.exit_event = true :=
  ⟨by decide,
   (claim_C9 c1env.toEnv [] c9state (by decide)).2.2.2.2.1 c9out c1evs
     (by decide)⟩

lemma forAttempt_le_max (b : Backoff) (a : ℕ) : b.forAttempt a ≤ b.maxMs :=
  min_le_right _ _

lemma forAttempt_mono (b : Backoff) (hmin : 0 ≤ b.minMs)
    (hfac : 1 ≤ b.factor) {a a2 : ℕ} (ha : a ≤ a2) :
    b.forAttempt a ≤ b.forAttempt a2 := by
  unfold Backoff.forAttempt
  exact min_le_min (mul_le_mul_of_nonneg_left
    (pow_le_pow_right₀ hfac ha) hmin) le_rfl

lemma fetchPure_attempt {Raw M U : Type} (e : PEnv Raw M U)
    (s : ClientState M) : (fetchPure e s).poll_attempt = s.poll_attempt := by
  cases h : e.fetch with
  | success o => cases o <;> simp [fetchPure, h]
  | unavailable => simp [fetchPure, h]
  | dataTypeMismatch => simp [fetchPure, h]

lemma trainPure_attempt {Raw M U : Type} (e : PEnv Raw M U)
    (s : ClientState M) :
    (trainPure e s).1.poll_attempt = s.poll_attempt := by
  cases h : e.submit (e.train s.global_model) <;> simp [trainPure, h]

/-- C6: the idle interval Scheduler never yields more than the configured
maximum; without progress consecutive waits are non-decreasing; a step that
made progress waits the minimum interval; under the client's configuration
ten progress-free steps yield exactly the intervals 100, 120, 144, ... ms,
all bounded by 10000; and each step advances the client's scheduler state
exactly as `stepWait` prescribes. -/
theorem claim_C6 {Raw M U : Type} :
    (∀ (b : Backoff) (p : Bool), (stepWait b p).1 ≤ b.maxMs) ∧
    (∀ b : Backoff, 0 ≤ b.minMs → 1 ≤ b.factor → ∀ p : Bool,
      (stepWait b p).1 ≤ (stepWait (stepWait b p).2 false).1) ∧
    (∀ b : Backoff, b.minMs ≤ b.maxMs → (stepWait b true).1 = b.minMs) ∧
    (idleSeq pollPeriod 10 =
      [100, 120, 144, 864/5, 5184/25, 31104/125, 186624/625, 1119744/3125,
        6718464/15625, 40310784/78125] ∧
      List.Chain' (fun x y => x ≤ y) (idleSeq pollPeriod 10) ∧
      ∀ d ∈ idleSeq pollPeriod 10, d ≤ 10000) ∧
    (∀ (e : PEnv Raw M U) (s sq : ClientState M) (evs : List (Ev M U)),
      stepE e.toEnv s = Except.ok (sq, evs) →
      sq.poll_attempt = stepAttempt s.poll_attempt e.made_progress) := by
  have hseq : idleSeq pollPeriod 10 =
      [100, 120, 144, 864/5, 5184/25, 31104/125, 186624/625, 1119744/3125,
        6718464/15625, 40310784/78125] := by
    norm_num [idleSeq, stepWait, Backoff.duration, Backoff.reset,
      Backoff.forAttempt, pollPeriod, min_def]
  refine ⟨fun b p => ?_, fun b hmin hfac p => ?_, fun b h => ?_,
    ⟨hseq, ?_, ?_⟩, fun e s sq evs h => ?_⟩
  · cases p <;>
      simp [stepWait, Backoff.duration, Backoff.reset, forAttempt_le_max,
        Backoff.forAttempt]
  · cases p with
    | false =>
        simp only [stepWait, Backoff.duration]
        exact forAttempt_mono b hmin hfac (Nat.le_succ b.attempt)
    | true =>
        simp only [stepWait, Backoff.duration, Backoff.reset]
        exact forAttempt_mono b hmin hfac (Nat.zero_le 1)
  · simp [stepWait, Backoff.duration, Backoff.reset, Backoff.forAttempt, h]
  · rw [hseq]
    norm_num [List.chain'_cons]
  · rw [hseq]
    norm_num
  · rw [stepE_toEnv] at h
    injection h with h
    have hq : (stepPure e s).1 = sq := by rw [h]
    subst hq
    cases hgate : (e.new_global_model || s.error_on_fetch_global_model) with
    | false =>
      cases hs : e.should_set_model with
      | false => simp [stepPure, hgate, hs]
      | true =>
        cases hp : (e.participate && !s.error_on_fetch_global_model) <;>
          simp [stepPure, hgate, hs, hp, trainPure_attempt]
    | true =>
      cases herr : (fetchPure e s).error_on_fetch_global_model with
      | false =>
        cases hs : e.should_set_model with
        | false => simp [stepPure, hgate, hs, herr, fetchPure_attempt]
        | true =>
          cases hp : e.participate <;>
            simp [stepPure, hgate, hs, hp, herr, trainPure_attempt,
              fetchPure_attempt]
      | true =>
        cases hs : e.should_set_model <;>
          simp [stepPure, hgate, hs, herr, fetchPure_attempt]

theorem claim_C6_witness :
    ((stepWait pollPeriod false).1 ≤
      (stepWait (stepWait pollPeriod false).2 false).1) ∧
    (stepWait pollPeriod true).1 = pollPeriod.minMs :=
  ⟨(@claim_C6 Nat Nat Nat).2.1 pollPeriod
      (by norm_num [pollPeriod]) (by norm_num [pollPeriod]) false,
   (@claim_C6 Nat Nat Nat).2.2.1 pollPeriod
      (by norm_num [pollPeriod])⟩

/-- C7 counterexample: the check-then-acquire race.  The loop thread passes
its exit test, then `stop()` runs to completion (sets the event, acquires
and releases the free lock, returns), and only afterwards does the loop
thread acquire the lock and begin a step — so a step starts after `stop()`
has returned, contradicting the claim that none can. -/
theorem claim_C7_counterexample :
    sysReachable sysRace ∧ sysRace.startsAfterReturn = 1 := by
  constructor
  · have h1 : SysStep sysInit
        { sysInit with lp := .acquiring } :=
      SysStep.loopEnter sysInit rfl rfl
    have h2 : SysStep { sysInit with lp := .acquiring }
        { sysInit with lp := .acquiring, sp := .acquiringS,
                       exitFlag := true } :=
      SysStep.stopSet _ rfl
    have h3 : SysStep
        { sysInit with lp := .acquiring, sp := .acquiringS, exitFlag := true }
        { sysInit with lp := .acquiring, sp := .releasingS, exitFlag := true,
                       lockStop := true } :=
      SysStep.stopAcquire _ rfl rfl rfl
    have h4 : SysStep
        { sysInit with lp := .acquiring, sp := .releasingS, exitFlag := true,
                       lockStop := true }
        { sysInit with lp := .acquiring, sp := .returned,
                       exitFlag := true } :=
      SysStep.stopReturn _ rfl
    have h5 : SysStep
        { sysInit with lp := .acquiring, sp := .returned, exitFlag := true }
        sysRace :=
      SysStep.loopAcquire _ rfl rfl rfl
    exact Relation.ReflTransGen.head h1 (Relation.ReflTransGen.head h2
      (Relation.ReflTransGen.head h3 (Relation.ReflTransGen.head h4
        (Relation.ReflTransGen.single h5))))
  · rfl

lemma sysInv_init : sysInv sysInit := by
  refine ⟨fun h => absurd rfl h, by decide, fun h => absurd h (by decide)⟩

lemma sysInv_step {s t : SysState} (h : SysStep s t) (hi : sysInv s) :
    sysInv t := by
  obtain ⟨h1, h2, h3⟩ := hi
  cases h with
  | loopExit hl hx => exact ⟨h1, h2, fun hc => ⟨(h3 hc).1, by simp⟩⟩
  | loopEnter hl hx =>
      refine ⟨h1, h2, fun hc => absurd hx ?_⟩
      rw [(h3 hc).1]
      simp
  | loopAcquire hl hll hls =>
      by_cases hsp : s.sp = .returned
      · have hx : s.exitFlag = true := h1 (by rw [hsp]; simp)
        have hc0 : s.startsAfterReturn = 0 := by
          rcases Nat.lt_or_ge s.startsAfterReturn 1 with hlt | hge
          · omega
          · exact absurd hl (h3 (by omega)).2
        refine ⟨h1, by simp [hsp, hc0], fun _ => ⟨hx, by simp⟩⟩
      · have hif : (if s.sp = .returned then 1 else 0) = 0 := by
          simp [hsp]
        refine ⟨h1, by simp [hif, h2], fun hc => ?_⟩
        rw [hif, Nat.add_zero] at hc
        exact ⟨(h3 hc).1, by simp⟩
  | loopRelease hl => exact ⟨h1, h2, fun hc => ⟨(h3 hc).1, by simp⟩⟩
  | loopWake hl => exact ⟨h1, h2, fun hc => ⟨(h3 hc).1, by simp⟩⟩
  | stopSet hsp => exact ⟨fun _ => rfl, h2, fun hc => ⟨rfl, (h3 hc).2⟩⟩
  | stopAcquire hsp hll hls =>
      exact ⟨fun _ => h1 (by rw [hsp]; simp), h2,
        fun hc => ⟨h1 (by rw [hsp]; simp), (h3 hc).2⟩⟩
  | stopReturn hsp =>
      exact ⟨fun _ => h1 (by rw [hsp]; simp), h2,
        fun hc => ⟨h1 (by rw [hsp]; simp), (h3 hc).2⟩⟩

lemma sysInv_reachable {s : SysState} (h : sysReachable s) : sysInv s := by
  unfold sysReachable at h
  induction h with
  | refl => exact sysInv_init
  | tail h1 h2 ih => exact sysInv_step h2 ih

/-- C7 (amended): `stop()` sets the Exit Signal and then blocks on the Step
Mutex, so it cannot return while a step holds the mutex; but a loop
iteration that passed its exit test before the signal was set may still
acquire the mutex and run one step after `stop()` has returned.  At most one
such step exists: in every reachable interleaving the number of steps
started after `stop()` returned is at most one. -/
theorem claim_C7 :
    ∀ s : SysState, sysReachable s → s.startsAfterReturn ≤ 1 := by
  intro s h
  exact (sysInv_reachable h).2.1

theorem claim_C7_witness :
    sysInit.startsAfterReturn ≤ 1 :=
  claim_C7 sysInit Relation.ReflTransGen.refl
